import Mathlib

/-!
Verification of the pandoc-filters repository (four panflute-based pandoc
filters: `adoc-admonitions.py`, `beamer-twocol.py`, `divs-to-latex.py`,
`super-links.py`).

The Python sources are shallowly embedded below: Python `dict`s become
association lists over `String` keys, Python strings become Lean `String`s
with hand-rolled models of the Python string methods actually used
(`split` with `maxsplit`, `removeprefix`, `startswith`/`endswith`,
`urllib.parse.quote_plus`), panflute document nodes become the inductive
types `Inline` and `Block`, and a filter action becomes a function from a
node to `Option` of its replacement (with `Except` where the Python code
can raise).
-/

namespace PandocFilters

/-- A Python `dict` with string keys, as an association list.  Lookup takes
the first matching entry; the concrete dictionaries appearing in the
filters have pairwise distinct keys, so this agrees with Python. -/
abbrev PyDict (V : Type) : Type := List (String × V)

/-- `d.get? k` models Python `d[k]` / `d.get(k)`: the value of the first
entry for key `k`, if any. -/
def PyDict.get? {V : Type} : PyDict V → String → Option V
  | [], _ => none
  | (k', v) :: rest, k => if k' = k then some v else PyDict.get? rest k

/-- Python `{**a, **b}`: keys of `a` in order (with `b`'s value winning when
the key is shared), then keys of `b` not in `a`, in order. -/
def dictMerge {V : Type} (a b : PyDict V) : PyDict V :=
  a.map (fun p => match PyDict.get? b p.1 with
                  | some v => (p.1, v)
                  | none => p)
  ++ b.filter (fun p => (PyDict.get? a p.1).isNone)

/-- `d.del k` models Python `del d[k]`. -/
def PyDict.del {V : Type} (d : PyDict V) (k : String) : PyDict V :=
  d.filter (fun p => p.1 != k)

/- ## Python string helpers -/

/-- `chIsPre p s` : the character list `p` is a prefix of `s`. -/
def chIsPre : List Char → List Char → Bool
  | [], _ => true
  | _ :: _, [] => false
  | a :: as, b :: bs => a = b && chIsPre as bs

/-- First occurrence of the (non-empty) separator `sep` in `s`:
`some (pre, post)` with `s = pre ++ sep ++ post` and `sep` not occurring
earlier, or `none` when `sep` does not occur. -/
def splitOnceCh (sep : List Char) : List Char → Option (List Char × List Char)
  | [] => none
  | c :: cs =>
      if chIsPre sep (c :: cs) then some ([], (c :: cs).drop sep.length)
      else match splitOnceCh sep cs with
           | some (pre, post) => some (c :: pre, post)
           | none => none

/-- Python `s.split(sep, maxsplit)` on character lists (`sep` non-empty). -/
def pySplitCh (sep : List Char) : Nat → List Char → List (List Char)
  | 0, s => [s]
  | Nat.succ n, s =>
      match splitOnceCh sep s with
      | none => [s]
      | some (pre, post) => pre :: pySplitCh sep n post

/-- Python `s.split(sep, maxsplit)`. -/
def pySplit (sep : String) (maxsplit : Nat) (s : String) : List String :=
  (pySplitCh sep.data maxsplit s.data).map fun l => ⟨l⟩

/-- Python `s.startswith(p)`. -/
def pyStartsWith (p s : String) : Bool := chIsPre p.data s.data

/-- Python `s.endswith(p)`. -/
def pyEndsWith (p s : String) : Bool := chIsPre p.data.reverse s.data.reverse

/-- Python `s.removeprefix(p)` (note: the name avoids the method's own
spelling for lexical reasons; semantics are identical). -/
def pyRemovePre (p s : String) : String :=
  if pyStartsWith p s then ⟨s.data.drop p.data.length⟩ else s

/-- Uppercase hexadecimal digit for `n < 16`. -/
def hexDigit (n : Nat) : Char :=
  if n < 10 then Char.ofNat (48 + n) else Char.ofNat (55 + n)

/-- UTF-8 bytes of a character (as numbers). -/
def utf8Bytes (c : Char) : List Nat :=
  let n := c.toNat
  if n < 128 then [n]
  else if n < 2048 then [192 + n / 64, 128 + n % 64]
  else if n < 65536 then [224 + n / 4096, 128 + (n / 64) % 64, 128 + n % 64]
  else [240 + n / 262144, 128 + (n / 4096) % 64, 128 + (n / 64) % 64, 128 + n % 64]

/-- The characters `urllib.parse.quote_plus` never encodes
(Python's `ALWAYS_SAFE`: letters, digits, `_.-~`). -/
def urlSafeChar (c : Char) : Bool :=
  c.isAlpha || c.isDigit || c == '_' || c == '.' || c == '-' || c == '~'

/-- Encoding of one character under `urllib.parse.quote_plus`. -/
def quotePlusChar (c : Char) : List Char :=
  if urlSafeChar c then [c]
  else if c == ' ' then ['+']
  else (utf8Bytes c).flatMap fun b => ['%', hexDigit (b / 16), hexDigit (b % 16)]

/-- Model of `urllib.parse.quote_plus`: spaces become `+`, characters
outside `ALWAYS_SAFE` become `%XX` percent-escapes of their UTF-8 bytes. -/
def quote_plus (s : String) : String :=
  ⟨s.data.flatMap quotePlusChar⟩

/- ## Document tree (the panflute node kinds used by the four filters) -/

/-- Inline-level nodes. -/
inductive Inline : Type where
  | Str (text : String)
  | Space
  | RawInline (format : String) (text : String)
  | Span (identifier : String) (classes : List String)
         (attributes : PyDict String) (content : List Inline)
  | Link (url : String) (classes : List String)
         (attributes : PyDict String) (content : List Inline)

/-- Block-level nodes. -/
inductive Block : Type where
  | Para (content : List Inline)
  | Plain (content : List Inline)
  | HorizontalRule
  | RawBlock (format : String) (text : String)
  | Div (identifier : String) (classes : List String)
        (attributes : PyDict String) (content : List Block)

/-- panflute `stringify` on a list of inlines: elements carrying a `text`
attribute contribute it, horizontal space contributes a blank, containers
contribute their flattened content. -/
def stringifyInlines : List Inline → String
  | [] => ""
  | Inline.Str s :: is => s ++ stringifyInlines is
  | Inline.Space :: is => " " ++ stringifyInlines is
  | Inline.RawInline _ t :: is => t ++ stringifyInlines is
  | Inline.Span _ _ _ c :: is => stringifyInlines c ++ stringifyInlines is
  | Inline.Link _ _ _ c :: is => stringifyInlines c ++ stringifyInlines is

/- ## `adoc-admonitions.py` -/

/-- The built-in admonition table `ADMONITIONS` of `adoc-admonitions.py`. -/
def ADMONITIONS : PyDict String :=
  [("NOTE", "note"), ("TIP", "tip"), ("ERROR", "error"),
   ("CODE", "term"), ("WARNING", "warn"), ("QUOTE", "quote")]

/-- One visit of `action` in `adoc-admonitions.py`, including the
module-global caching of `META`.

State `cached : Bool` mirrors `'META' in globals()`.  On the first `Para`
visit the merged table `admonitions = {**ADMONITIONS, **META}` is bound as
a *local* variable and `META` is stored in `globals()`; on every later
visit the `if 'META' not in globals()` block is skipped, so the local
`admonitions` is unbound and referencing it at `first_word not in
admonitions` raises `UnboundLocalError`.  The result is the new cache
state together with the action's return value (`none` = node unchanged,
`some bs` = replace by the block list `bs`).

`text = stringify(elem)` on a `Para` is the flattened inline content plus
a trailing blank line: panflute's `stringify` walks the children and then
the `Para` element itself, which is in `VerticalSpaces` and contributes
`"\n\n"` (with the default `newlines=True`).  Consequently the
`if not len(text)` guard is dead code: `text` always ends with the two
newline characters. -/
def adocVisit (meta : PyDict String) (format : String) (cached : Bool)
    (elem : Block) : Except String (Bool × Option (List Block)) :=
  match elem with
  | Block.Para inls =>
      let admonitionsLocal : Option (PyDict String) :=
        if cached then none else some (dictMerge ADMONITIONS meta)
      let text := stringifyInlines inls ++ "\n\n"
      if text.length = 0 then Except.ok (true, none)
      else
        let first_word := (pySplit ": " 1 text).headD text
        match admonitionsLocal with
        | none => Except.error "UnboundLocalError: admonitions"
        | some admonitions =>
          match PyDict.get? admonitions first_word with
          | none => Except.ok (true, none)
          | some classname =>
            let newtext := pyRemovePre (first_word ++ ": ") text
            if format = "latex" ∨ format = "beamer" then
              Except.ok (true, some
                [Block.RawBlock "tex" ("\\begin\x7b" ++ classname ++ "\x7d"),
                 Block.Para [Inline.Str newtext],
                 Block.RawBlock "tex" ("\\end\x7b" ++ classname ++ "\x7d")])
            else
              Except.ok (true, some
                [Block.Div "" [classname] [] [Block.Para [Inline.Str newtext]]])
  | _ => Except.ok (cached, none)

/-- Visiting a sequence of sibling nodes in one document run of
`adoc-admonitions.py`, threading the module-global cache state and
stopping at the first raised exception. -/
def adocRunList (meta : PyDict String) (format : String) :
    Bool → List Block → Except String (List (Option (List Block)))
  | _, [] => Except.ok []
  | cached, b :: bs =>
      match adocVisit meta format cached b with
      | Except.error e => Except.error e
      | Except.ok (cached', r) =>
          match adocRunList meta format cached' bs with
          | Except.error e => Except.error e
          | Except.ok rs => Except.ok (r :: rs)

/- ## `super-links.py` -/

/-- A value of the `LINKS` dictionary: either a bare URL string or a
nested dictionary with required key `url` and optional keys `encode`,
`before`, `after` (absent keys modelled as `none`). -/
inductive TargetSpec : Type where
  | bare (url : String)
  | record (url : String) (encode : Option Bool)
        (before : Option String) (after : Option String)

/-- The built-in `LINKS` table of `super-links.py`. -/
def LINKS : PyDict TargetSpec :=
  [("wiki", TargetSpec.record "https://en.wikipedia.org/wiki" (some true) (some "") (some "")),
   ("pubmed", TargetSpec.record "https://pubmed.ncbi.nlm.nih.gov/" none (some "pubmed:") none),
   ("doi", TargetSpec.record "https://doi.org/" none (some "DOI:") none),
   ("github", TargetSpec.bare "https://github.com/"),
   ("youtube", TargetSpec.bare "https://www.youtube.com/")]

/-- Python truthiness of `attrs.get(k)` for a string-valued key: `None`
and the empty string are falsy. -/
def optStrTruthy : Option String → Bool
  | none => false
  | some s => !s.isEmpty

/-- `get_link_text` of `super-links.py`.  The source reads
`url_data = LINKS[type]`; since its only caller checks `type in LINKS`
first, the looked-up value is passed here directly as `url_data`.
`link_text` is `stringify(elem)` and `attrs` is `elem.attributes`.
Returns the pair `(link_text, url)`. -/
def get_link_text (url_data : TargetSpec) (attrs : PyDict String)
    (link_text : String) : String × String :=
  let title := PyDict.get? attrs "title"
  match url_data with
  | TargetSpec.bare u =>
      let slash := if pyEndsWith "/" u then "" else "/"
      let url := u ++ slash ++ link_text
      let link_text := if optStrTruthy title then title.getD "" else link_text
      (link_text, url)
  | TargetSpec.record u encode before after =>
      let slash := if pyEndsWith "/" u then "" else "/"
      let url :=
        if encode.getD false then u ++ slash ++ quote_plus link_text
        else u ++ slash ++ link_text
      let link_text := if optStrTruthy title then title.getD "" else link_text
      let prepend := before.getD ""
      let prepend := (PyDict.get? attrs "before").getD prepend
      let link_text := prepend ++ link_text
      let append := after.getD ""
      let append := (PyDict.get? attrs "after").getD append
      let link_text := link_text ++ append
      (link_text, url)

/-- One visit of `action` in `super-links.py`, after the merged `LINKS`
table has been established (`links = {**LINKS, **META}`).  `none` means
the node is returned unchanged.  The trigger type is the `type` attribute
if present, else the first class, else the initial `""`; a type that is
not a key of `links` is a silent no-match. -/
def superLinksAction (links : PyDict TargetSpec) (elem : Inline) : Option Inline :=
  match elem with
  | Inline.Span identifier classes attrs content =>
      if identifier ≠ "l" then none
      else
        let ty :=
          match PyDict.get? attrs "type" with
          | some t => t
          | none => match classes with
                    | c :: _ => c
                    | [] => ""
        match PyDict.get? links ty with
        | none => none
        | some url_data =>
            let p := get_link_text url_data attrs (stringifyInlines content)
            some (Inline.Link p.2 classes attrs [Inline.Str p.1])
  | _ => none

/- ## `beamer-twocol.py` -/

/-- The `DIVNAME` sentinel of `beamer-twocol.py`. -/
def DIVNAME : String := "twocol"

/-- `split_attributes` of `beamer-twocol.py`: `attr.split(",", maxsplit=2)`,
the left half gets the first part, the right half gets the second part when
a comma is present and the first part otherwise.  Returned as
`(left value, right value)` instead of updating the shared dictionary. -/
def split_attributes (attr : String) : String × String :=
  let attrs := pySplit "," 2 attr
  let split_pos := if attrs.length > 1 then 1 else 0
  (attrs.headD "", (attrs.getD split_pos ""))

/-- `process_attributes` of `beamer-twocol.py`.  For each of `align` and
`width` present in `attributes`, splits its value into a left and a right
value and deletes the key from the original dictionary (the source mutates
`elem.attributes` in place; here the remaining dictionary is returned as
the first component, then the `left` and `right` dictionaries). -/
def process_attributes (attributes : PyDict String) :
    PyDict String × PyDict String × PyDict String :=
  ["align", "width"].foldl
    (fun acc i =>
      match PyDict.get? acc.1 i with
      | none => acc
      | some v =>
          let lr := split_attributes v
          (PyDict.del acc.1 i, acc.2.1 ++ [(i, lr.1)], acc.2.2 ++ [(i, lr.2)]))
    (attributes, [], [])

/-- `isinstance(d, HorizontalRule)`. -/
def isHorizontalRule : Block → Bool
  | Block.HorizontalRule => true
  | _ => false

/-- The position of the first `HorizontalRule` in a block list:
`[i for i,d in enumerate(elem.content) if isinstance(d,HorizontalRule)]`
followed by taking element `[0]`, with `none` when the comprehension is
empty. -/
def findHRpos : List Block → Option Nat
  | [] => none
  | d :: ds => if isHorizontalRule d then some 0 else (findHRpos ds).map (· + 1)

/-- `action` of `beamer-twocol.py`.  The source's format guard
(`if doc.format != 'beamer': pass`) has an empty body and therefore no
effect, so `format` does not influence the result.  An `Except.error`
models a raised exception (`elem.classes[0]` on an empty class list raises
`IndexError`); `Except.ok none` is "node unchanged".  The source's guard
`ruler_pos < num_elements` before building the right column is always true
because `ruler_pos` is an index into the content list. -/
def twocolAction (format : String) (elem : Block) : Except String (Option Block) :=
  match elem with
  | Block.Div _ classes attributes content =>
      match classes with
      | [] => Except.error "IndexError: list index out of range"
      | c0 :: _ =>
          if c0 ≠ DIVNAME then Except.ok none
          else
            match findHRpos content with
            | none => Except.ok none
            | some ruler_pos =>
                let pa := process_attributes attributes
                let beforeContent := content.take ruler_pos
                let beforeDiv := Block.Div "" ["column"]
                  (dictMerge pa.1 pa.2.1) beforeContent
                let afterContent := content.drop (ruler_pos + 1)
                let afterDiv := Block.Div "" ["column"]
                  (dictMerge pa.1 pa.2.2) afterContent
                Except.ok (some (Block.Div "" ["columns"] [] [beforeDiv, afterDiv]))
  | _ => Except.ok none

/- ## `divs-to-latex.py` -/

/-- The data the source stashes in `doc.div` between the Div's action and
the walk handler: `(env, title, label)`. -/
abbrev EnvData : Type := String × String × String

/-- The walk `elem.walk(add_before_first_paragraph, doc)` of
`divs-to-latex.py`, as a state-threading traversal over a block list.  The
state is `doc.div`: `some (env, title, label)` while the opening marker is
still pending, `none` after the handler has fired once (the handler deletes
`doc.div`, and its `hasattr` guard makes every later visit a no-op).  The
handler fires exactly on `Para` nodes (`type(elem) == Para`), inserting the
raw opening marker as the first inline. -/
def walkAddBefore : Option EnvData → List Block → Option EnvData × List Block
  | st, [] => (st, [])
  | st, Block.Para ils :: bs =>
      (match st with
       | some d =>
           let s := walkAddBefore none bs
           (s.1, Block.Para (Inline.RawInline "tex"
             ("\\begin\x7b" ++ d.1 ++ "\x7d" ++ d.2.1 ++ d.2.2) :: ils) :: s.2)
       | none =>
           let s := walkAddBefore none bs
           (s.1, Block.Para ils :: s.2))
  | st, Block.Div i c a content :: bs =>
      let s1 := walkAddBefore st content
      let s2 := walkAddBefore s1.1 bs
      (s2.1, Block.Div i c a s1.2 :: s2.2)
  | st, b :: bs =>
      let s := walkAddBefore st bs
      (s.1, b :: s.2)

/-- `action` of `divs-to-latex.py` on a Div, given the per-call `META`
value (always re-read as `doc.get_metadata('div-env', None)`, modelled as a
dictionary that is empty when the metadata is absent).  The source's format
guard (`if doc.format not in ['beamer', 'latex']: pass`) has an empty body
and therefore no effect, so `format` does not influence the result.  The
action mutates `elem` in place and returns `None`, which panflute keeps as
the (mutated) element; the mutated element is returned here as `some`,
while `none` is "node untouched". -/
def divEnvAction (meta : PyDict String) (format : String) (elem : Block) :
    Option Block :=
  match elem with
  | Block.Div identifier classes attributes content =>
      if meta.isEmpty then none
      else
        match classes with
        | [] => none
        | c0 :: _ =>
            match PyDict.get? meta c0 with
            | none => none
            | some env =>
                let label :=
                  if identifier ≠ "" then "\\label\x7b" ++ identifier ++ "\x7d" else ""
                let title :=
                  match PyDict.get? attributes "title" with
                  | some t => "[" ++ t ++ "]"
                  | none => ""
                let walked := walkAddBefore (some (env, title, label)) content
                some (Block.Div identifier classes attributes
                  (walked.2 ++
                   [Block.Plain [Inline.RawInline "tex" ("\\end\x7b" ++ env ++ "\x7d")]]))
  | _ => none

/- ## Lookup lemmas for `PyDict` and `dictMerge` -/

theorem pyGet_append {V : Type} (a b : PyDict V) (k : String) :
    PyDict.get? (a ++ b) k =
      match PyDict.get? a k with
      | some v => some v
      | none => PyDict.get? b k := by
  induction a with
  | nil => simp [PyDict.get?]
  | cons p a ih =>
      obtain ⟨k0, v0⟩ := p
      by_cases h : k0 = k <;> simp [PyDict.get?, h, ih]

theorem pyGet_mergeMap {V : Type} (a b : PyDict V) (k : String) :
    PyDict.get? (a.map (fun p => match PyDict.get? b p.1 with
                                 | some v => (p.1, v)
                                 | none => p)) k =
      match PyDict.get? a k with
      | some v => some (match PyDict.get? b k with
                        | some w => w
                        | none => v)
      | none => none := by
  induction a with
  | nil => simp [PyDict.get?]
  | cons p a ih =>
      obtain ⟨k0, v0⟩ := p
      by_cases h : k0 = k
      · subst h
        cases hb : PyDict.get? b k0 <;> simp [PyDict.get?, hb]
      · cases hb : PyDict.get? b k0 <;> simp [PyDict.get?, hb, h, ih]

theorem pyGet_filter_key {V : Type} (b : PyDict V) (P : String × V → Bool)
    (k : String) (hP : ∀ v, P (k, v) = true) :
    PyDict.get? (b.filter P) k = PyDict.get? b k := by
  induction b with
  | nil => simp
  | cons p b ih =>
      obtain ⟨k0, v0⟩ := p
      by_cases h : k0 = k
      · subst h
        simp [List.filter, hP v0, PyDict.get?]
      · cases hp : P (k0, v0) <;> simp [List.filter, hp, PyDict.get?, h, ih]

theorem dictMerge_get? {V : Type} (a b : PyDict V) (k : String) :
    PyDict.get? (dictMerge a b) k =
      match PyDict.get? b k with
      | some v => some v
      | none => PyDict.get? a k := by
  unfold dictMerge
  rw [pyGet_append, pyGet_mergeMap]
  cases ha : PyDict.get? a k with
  | some v =>
      cases hb : PyDict.get? b k <;> simp
  | none =>
      rw [pyGet_filter_key b _ k (fun v => by simp [ha])]
      cases hb : PyDict.get? b k <;> simp

/-- C9: the configuration merge `{**defaults, **override}` yields a mapping
whose key set is the union of the two key sets; a key present in both maps
to the override's entire entry (whole-entry replacement), and a key present
in only one input keeps its value. -/
theorem C9_merge_union_override_wins {V : Type} (defaults override : PyDict V)
    (k : String) :
    (PyDict.get? (dictMerge defaults override) k =
      match PyDict.get? override k with
      | some v => some v
      | none => PyDict.get? defaults k) ∧
    ((PyDict.get? (dictMerge defaults override) k).isSome ↔
      ((PyDict.get? defaults k).isSome ∨ (PyDict.get? override k).isSome)) := by
  refine ⟨dictMerge_get? defaults override k, ?_⟩
  rw [dictMerge_get? defaults override k]
  cases ho : PyDict.get? override k <;> cases hd : PyDict.get? defaults k <;> simp

/- ## C1: the admonition cache crashes on the second non-empty paragraph -/

/-- C1: the claim says that after the merged admonition mapping is cached on
the first matched node, every later node reuses it and in particular a
second non-empty Paragraph is processed successfully.  In the code the
merged table `admonitions` is a local variable bound only on the first
visit, so the second non-empty Paragraph raises `UnboundLocalError`
instead: a document whose blocks are the Paragraphs `NOTE: hello` and
`TIP: x` fails. -/
theorem C1_second_paragraph_crashes :
    adocRunList [] "html" false
      [Block.Para [Inline.Str "NOTE: hello"], Block.Para [Inline.Str "TIP: x"]] =
      Except.error "UnboundLocalError: admonitions" := by
  simp only [adocRunList, adocVisit, stringifyInlines]
  rfl

/- ## C2: the target-format guards are inert `pass` statements -/

/-- C2: the claim says the Column-Split rule rewrites only on `beamer` and
the Environment-Wrap rule only on `latex`/`beamer`, both being silent
no-ops elsewhere.  Both format guards in the code are `if ...: pass`
statements with empty bodies, so on target format `html` both rules still
rewrite their triggering Div instead of returning it unchanged. -/
theorem C2_format_guards_inert :
    twocolAction "html"
        (Block.Div "" ["twocol"] []
          [Block.Para [Inline.Str "L"], Block.HorizontalRule,
           Block.Para [Inline.Str "R"]]) =
      Except.ok (some (Block.Div "" ["columns"] []
        [Block.Div "" ["column"] [] [Block.Para [Inline.Str "L"]],
         Block.Div "" ["column"] [] [Block.Para [Inline.Str "R"]]])) ∧
    twocolAction "html"
        (Block.Div "" ["twocol"] []
          [Block.Para [Inline.Str "L"], Block.HorizontalRule,
           Block.Para [Inline.Str "R"]]) ≠ Except.ok none ∧
    divEnvAction [("note", "admonitionnote")] "html"
        (Block.Div "" ["note"] [] [Block.Para [Inline.Str "x"]]) =
      some (Block.Div "" ["note"] []
        [Block.Para [Inline.RawInline "tex" "\\begin\x7badmonitionnote\x7d",
                     Inline.Str "x"],
         Block.Plain [Inline.RawInline "tex" "\\end\x7badmonitionnote\x7d"]]) ∧
    divEnvAction [("note", "admonitionnote")] "html"
        (Block.Div "" ["note"] [] [Block.Para [Inline.Str "x"]]) ≠ none := by
  have h1 : twocolAction "html"
      (Block.Div "" ["twocol"] []
        [Block.Para [Inline.Str "L"], Block.HorizontalRule,
         Block.Para [Inline.Str "R"]]) =
      Except.ok (some (Block.Div "" ["columns"] []
        [Block.Div "" ["column"] [] [Block.Para [Inline.Str "L"]],
         Block.Div "" ["column"] [] [Block.Para [Inline.Str "R"]]])) := rfl
  have h2 : divEnvAction [("note", "admonitionnote")] "html"
      (Block.Div "" ["note"] [] [Block.Para [Inline.Str "x"]]) =
      some (Block.Div "" ["note"] []
        [Block.Para [Inline.RawInline "tex" "\\begin\x7badmonitionnote\x7d",
                     Inline.Str "x"],
         Block.Plain [Inline.RawInline "tex" "\\end\x7badmonitionnote\x7d"]]) := by
    simp only [divEnvAction, walkAddBefore]
    rfl
  refine ⟨h1, ?_, h2, ?_⟩
  · rw [h1]; simp
  · rw [h2]; simp

/- ## C8: a classless Div crashes the Column-Split matcher -/

/-- C8: the claim says every node failing a rule's matcher — including a
Div with an empty class list — is returned unchanged and never raises.  In
`beamer-twocol.py` the matcher reads `elem.classes[0]` before any length
check, so a Div with no classes raises `IndexError`.  (The super-links
part of the claim does hold: a Span with the sentinel identifier but no
`type` attribute and no class is a silent no-match.) -/
theorem C8_classless_div_raises :
    twocolAction "beamer" (Block.Div "x" [] [] []) =
      Except.error "IndexError: list index out of range" ∧
    superLinksAction LINKS (Inline.Span "l" [] [] [Inline.Str "x"]) = none := by
  exact ⟨rfl, rfl⟩

/- ## C6: wiki link construction -/

/-- C6: the `wiki` trigger (target `https://en.wikipedia.org/wiki`,
encode=true) on base text `Arabidopsis thaliana` produces the URL
`https://en.wikipedia.org/wiki/Arabidopsis+thaliana` (one separating slash
added because the target has none, base text percent-plus encoded) with
display text `Arabidopsis thaliana`; with `title="Thale cress"` the display
text becomes the title while the URL is unchanged; and for a target already
ending in a slash no second slash is added. -/
theorem C6_wiki_link_construction :
    superLinksAction LINKS
        (Inline.Span "l" ["wiki"] [] [Inline.Str "Arabidopsis thaliana"]) =
      some (Inline.Link "https://en.wikipedia.org/wiki/Arabidopsis+thaliana"
        ["wiki"] [] [Inline.Str "Arabidopsis thaliana"]) ∧
    superLinksAction LINKS
        (Inline.Span "l" ["wiki"] [("title", "Thale cress")]
          [Inline.Str "Arabidopsis thaliana"]) =
      some (Inline.Link "https://en.wikipedia.org/wiki/Arabidopsis+thaliana"
        ["wiki"] [("title", "Thale cress")] [Inline.Str "Thale cress"]) ∧
    get_link_text (TargetSpec.record "https://x/" (some true) none none) [] "a b" =
      ("a b", "https://x/a+b") := by
  refine ⟨?_, ?_, rfl⟩ <;> (simp only [superLinksAction, stringifyInlines]; rfl)

/- ## Splitting lemmas -/

theorem chIsPre_append (p r : List Char) : chIsPre p (p ++ r) = true := by
  induction p with
  | nil => rfl
  | cons c p ih => simp [chIsPre, ih]

theorem chIsPre_drop (p : List Char) :
    ∀ s : List Char, chIsPre p s = true → s = p ++ s.drop p.length := by
  induction p with
  | nil => intro s _; simp
  | cons c p ih =>
      intro s h
      cases s with
      | nil => simp [chIsPre] at h
      | cons d s' =>
          simp only [chIsPre, Bool.and_eq_true, decide_eq_true_eq] at h
          obtain ⟨rfl, h2⟩ := h
          simpa using congrArg (c :: ·) (ih s' h2)

theorem pyGet_isSome_mem_keys {V : Type} (d : PyDict V) (k : String)
    (h : (PyDict.get? d k).isSome = true) : k ∈ d.map Prod.fst := by
  induction d with
  | nil => simp [PyDict.get?] at h
  | cons p d ih =>
      obtain ⟨k0, v0⟩ := p
      by_cases hk : k0 = k
      · simp [hk]
      · simp only [PyDict.get?, hk, if_false] at h
        simpa using Or.inr (ih h)

theorem splitOnceCh_eq (sep : List Char) :
    ∀ s pre post : List Char, splitOnceCh sep s = some (pre, post) →
      s = pre ++ sep ++ post := by
  intro s
  induction s with
  | nil => intro pre post h; simp [splitOnceCh] at h
  | cons c cs ih =>
      intro pre post h
      unfold splitOnceCh at h
      by_cases hp : chIsPre sep (c :: cs) = true
      · simp only [hp, if_true, Option.some.injEq, Prod.mk.injEq] at h
        obtain ⟨rfl, rfl⟩ := h
        simpa using chIsPre_drop sep (c :: cs) hp
      · simp only [hp, if_false, Bool.not_eq_true] at h
        rw [if_neg (by simp [hp])] at h
        cases hs : splitOnceCh sep cs with
        | none => rw [hs] at h; exact absurd h (by simp)
        | some pq =>
            obtain ⟨p, q⟩ := pq
            rw [hs] at h
            simp only [Option.some.injEq, Prod.mk.injEq] at h
            obtain ⟨rfl, rfl⟩ := h
            simpa using congrArg (c :: ·) (ih p q hs)

/- ## C3: which paragraphs the admonition rule leaves unchanged -/

/-- C3 counterexample: the round-trip half of the claim fails.  `stringify`
on a `Para` appends a trailing blank line, so rewriting the Paragraph
`NOTE: hello` produces a Paragraph whose text is `hello\n\n` — not `hello`
as the claim states — both on structured targets and on latex. -/
theorem C3_counterexample :
    adocVisit [] "html" false (Block.Para [Inline.Str "NOTE: hello"]) =
      Except.ok (true, some
        [Block.Div "" ["note"] [] [Block.Para [Inline.Str "hello\n\n"]]]) ∧
    adocVisit [] "latex" false (Block.Para [Inline.Str "NOTE: hello"]) =
      Except.ok (true, some
        [Block.RawBlock "tex" "\\begin\x7bnote\x7d",
         Block.Para [Inline.Str "hello\n\n"],
         Block.RawBlock "tex" "\\end\x7bnote\x7d"]) ∧
    "hello\n\n" ≠ "hello" := by
  refine ⟨?_, ?_, by decide⟩ <;> (simp only [adocVisit, stringifyInlines]; rfl)

/-- C3 (amended): provided no configured trigger word contains a newline
(true of the built-in table and of any realistic metadata), every
Paragraph whose flattened text — inline content plus the trailing blank
line `stringify` appends for the Paragraph itself — does not start with
`WORD: ` for any configured trigger WORD is returned unchanged; and
rewriting the Paragraph `NOTE: hello` yields, on a structured target, a
single Div of class `note` wrapping a Paragraph with text `hello\n\n`
(the trailing blank line of the flattened source text is kept), and on
latex/beamer the 3-node sequence `\begin{note}`, Paragraph `hello\n\n`,
`\end{note}`. -/
theorem C3_amended_no_trigger_unchanged (meta : PyDict String) (format : String)
    (inls : List Inline)
    (h : ∀ w ∈ (dictMerge ADMONITIONS meta).map Prod.fst,
         pyStartsWith (w ++ ": ") (stringifyInlines inls ++ "\n\n") = false)
    (hnl : ∀ w ∈ (dictMerge ADMONITIONS meta).map Prod.fst,
         w.data.all (fun c => ¬(c = '\n')) = true) :
    adocVisit meta format false (Block.Para inls) = Except.ok (true, none) ∧
    adocVisit [] "html" false (Block.Para [Inline.Str "NOTE: hello"]) =
      Except.ok (true, some
        [Block.Div "" ["note"] [] [Block.Para [Inline.Str "hello\n\n"]]]) ∧
    adocVisit [] "latex" false (Block.Para [Inline.Str "NOTE: hello"]) =
      Except.ok (true, some
        [Block.RawBlock "tex" "\\begin\x7bnote\x7d",
         Block.Para [Inline.Str "hello\n\n"],
         Block.RawBlock "tex" "\\end\x7bnote\x7d"]) ∧
    adocVisit [] "beamer" false (Block.Para [Inline.Str "NOTE: hello"]) =
      Except.ok (true, some
        [Block.RawBlock "tex" "\\begin\x7bnote\x7d",
         Block.Para [Inline.Str "hello\n\n"],
         Block.RawBlock "tex" "\\end\x7bnote\x7d"]) := by
  refine ⟨?_, by simp only [adocVisit, stringifyInlines]; rfl,
          by simp only [adocVisit, stringifyInlines]; rfl,
          by simp only [adocVisit, stringifyInlines]; rfl⟩
  have hfw : PyDict.get? (dictMerge ADMONITIONS meta)
      ((pySplit ": " 1 (stringifyInlines inls ++ "\n\n")).head?.getD
        (stringifyInlines inls ++ "\n\n")) = none := by
    cases hsp : splitOnceCh (": ".data) (stringifyInlines inls ++ "\n\n").data with
    | none =>
        simp only [pySplit, pySplitCh, hsp, List.map, List.head?, Option.getD]
        cases hg : PyDict.get? (dictMerge ADMONITIONS meta)
            (stringifyInlines inls ++ "\n\n") with
        | none => rfl
        | some v =>
            exfalso
            have hmem := pyGet_isSome_mem_keys _ _ (by rw [hg]; rfl)
            have hall := hnl _ hmem
            have hin : '\n' ∈ (stringifyInlines inls ++ "\n\n").data := by
              show '\n' ∈ (stringifyInlines inls).data ++ ("\n\n".data)
              exact List.mem_append_right _ (by decide)
            have := (List.all_eq_true.mp hall) '\n' hin
            simp at this
    | some pq =>
        obtain ⟨pre, post⟩ := pq
        simp only [pySplit, pySplitCh, hsp, List.map, List.head?, Option.getD]
        cases hg : PyDict.get? (dictMerge ADMONITIONS meta) ⟨pre⟩ with
        | none => rfl
        | some v =>
            exfalso
            have hw := h ⟨pre⟩ (pyGet_isSome_mem_keys _ _ (by simp [hg]))
            have hdata : (stringifyInlines inls ++ "\n\n").data =
                pre ++ (": ".data) ++ post :=
              splitOnceCh_eq (": ".data) (stringifyInlines inls ++ "\n\n").data
                pre post hsp
            have : pyStartsWith (String.mk pre ++ ": ")
                (stringifyInlines inls ++ "\n\n") = true := by
              unfold pyStartsWith
              rw [hdata]
              have hd : (String.mk pre ++ ": ").data = pre ++ (": ".data) := rfl
              rw [hd]
              exact chIsPre_append (pre ++ ": ".data) post
            rw [this] at hw
            exact absurd hw (by simp)
  simp only [adocVisit]
  by_cases h0 : (stringifyInlines inls ++ "\n\n").length = 0
  · simp [h0]
  · simp [h0, hfw]

/-- C3 witness: a Paragraph with text `hello world` (and a bare `NOTE`
Paragraph) match no trigger under the default configuration, so the rule
leaves them unchanged. -/
theorem C3_amended_witness :
    adocVisit [] "html" false (Block.Para [Inline.Str "hello world"]) =
      Except.ok (true, none) ∧
    adocVisit [] "html" false (Block.Para [Inline.Str "NOTE"]) =
      Except.ok (true, none) :=
  ⟨(C3_amended_no_trigger_unchanged [] "html" [Inline.Str "hello world"]
    (by simp only [stringifyInlines]; decide) (by decide)).1,
   (C3_amended_no_trigger_unchanged [] "html" [Inline.Str "NOTE"]
    (by simp only [stringifyInlines]; decide) (by decide)).1⟩

/- ## C4: before/after resolution in the Link rule -/

/-- C4 counterexample: the claim's resolution precedence fails twice.
For a bare-string Target Spec (`github`) the code never applies
`before`/`after` at all, so an explicit `before="X"` attribute is ignored
(display `text`, not `Xtext`); and for a structured spec (`pubmed`,
default `before="pubmed:"`) a present-but-empty `before=""` attribute
overrides the mapping default (display `t`, not `pubmed:t`), whereas the
claim says a present-but-empty attribute falls back to the default. -/
theorem C4_counterexample :
    (get_link_text (TargetSpec.bare "https://github.com/")
        [("before", "X")] "text").1 = "text" ∧
    "text" ≠ "X" ++ "text" ∧
    (get_link_text (TargetSpec.record "https://pubmed.ncbi.nlm.nih.gov/" none
        (some "pubmed:") none) [("before", "")] "t").1 = "t" ∧
    "t" ≠ "pubmed:" ++ "t" := by
  exact ⟨rfl, by decide, rfl, by decide⟩

/-- C4 (amended): for a structured Target Spec the display text is the
resolved `before` prepended and the resolved `after` appended around the
title-substituted base text, where resolution is: the node's attribute if
*present* (including present-but-empty), else the mapping's default, else
empty; for a bare-string Target Spec no `before`/`after` wrapping is
applied at all (both attributes and defaults are ignored). -/
theorem C4_amended_wrapping (u : String) (encode : Option Bool)
    (before after : Option String) (attrs : PyDict String) (t : String) :
    (get_link_text (TargetSpec.record u encode before after) attrs t).1 =
      (((PyDict.get? attrs "before").getD (before.getD "")) ++
       (if optStrTruthy (PyDict.get? attrs "title") then
          (PyDict.get? attrs "title").getD "" else t)) ++
      ((PyDict.get? attrs "after").getD (after.getD "")) ∧
    (get_link_text (TargetSpec.bare u) attrs t).1 =
      (if optStrTruthy (PyDict.get? attrs "title") then
         (PyDict.get? attrs "title").getD "" else t) := by
  exact ⟨rfl, rfl⟩

/- ## C5: the column split itself -/

theorem findHRpos_none (bs : List Block)
    (h : ∀ x ∈ bs, isHorizontalRule x = false) : findHRpos bs = none := by
  induction bs with
  | nil => rfl
  | cons d ds ih =>
      have hd := h d (by simp)
      simp [findHRpos, hd, ih fun x hx => h x (by simp [hx])]

/-- C5: a triggering Div with children `[A, B, Rule, C]` (`Rule` the first
HorizontalRule child) becomes an outer Div of class `columns` with exactly
two `column` Divs: the left containing `[A, B]` in order and the right
containing `[C]`, the rule itself discarded; with the rule as last child
the right column is still emitted with no children; and a triggering Div
with no HorizontalRule child is returned unchanged. -/
theorem C5_column_split (format identifier : String) (cls : List String)
    (attrs : PyDict String) (a b c : Block)
    (ha : isHorizontalRule a = false) (hb : isHorizontalRule b = false) :
    twocolAction format
        (Block.Div identifier ("twocol" :: cls) attrs
          [a, b, Block.HorizontalRule, c]) =
      Except.ok (some (Block.Div "" ["columns"] []
        [Block.Div "" ["column"]
           (dictMerge (process_attributes attrs).1 (process_attributes attrs).2.1)
           [a, b],
         Block.Div "" ["column"]
           (dictMerge (process_attributes attrs).1 (process_attributes attrs).2.2)
           [c]])) ∧
    twocolAction format
        (Block.Div identifier ("twocol" :: cls) attrs [a, b, Block.HorizontalRule]) =
      Except.ok (some (Block.Div "" ["columns"] []
        [Block.Div "" ["column"]
           (dictMerge (process_attributes attrs).1 (process_attributes attrs).2.1)
           [a, b],
         Block.Div "" ["column"]
           (dictMerge (process_attributes attrs).1 (process_attributes attrs).2.2)
           []])) ∧
    (∀ bs : List Block, (∀ x ∈ bs, isHorizontalRule x = false) →
      twocolAction format (Block.Div identifier ("twocol" :: cls) attrs bs) =
        Except.ok none) := by
  refine ⟨?_, ?_, ?_⟩
  · simp [twocolAction, DIVNAME, findHRpos, ha, hb,
      show isHorizontalRule Block.HorizontalRule = true from rfl]
  · simp [twocolAction, DIVNAME, findHRpos, ha, hb,
      show isHorizontalRule Block.HorizontalRule = true from rfl]
  · intro bs hbs
    simp [twocolAction, DIVNAME, findHRpos_none bs hbs]

/-- C5 witness: concrete split of `[A, B, Rule, C]`. -/
theorem C5_column_split_witness :
    twocolAction "beamer"
        (Block.Div "" ["twocol"] []
          [Block.Para [Inline.Str "A"], Block.Para [Inline.Str "B"],
           Block.HorizontalRule, Block.Para [Inline.Str "C"]]) =
      Except.ok (some (Block.Div "" ["columns"] []
        [Block.Div "" ["column"] []
           [Block.Para [Inline.Str "A"], Block.Para [Inline.Str "B"]],
         Block.Div "" ["column"] [] [Block.Para [Inline.Str "C"]]])) :=
  (C5_column_split "beamer" "" [] [] (Block.Para [Inline.Str "A"])
    (Block.Para [Inline.Str "B"]) (Block.Para [Inline.Str "C"]) rfl rfl).1

/- ## C7: attribute pair splitting -/

theorem pyGet_filter_key_none {V : Type} (b : PyDict V) (P : String × V → Bool)
    (k : String) (hP : ∀ v, P (k, v) = false) :
    PyDict.get? (b.filter P) k = none := by
  induction b with
  | nil => simp [PyDict.get?]
  | cons p b ih =>
      obtain ⟨k0, v0⟩ := p
      by_cases h : k0 = k
      · subst h
        simp [List.filter, hP v0, ih]
      · cases hp : P (k0, v0) <;> simp [List.filter, hp, PyDict.get?, h, ih]

theorem pyGet_del_ne {V : Type} (d : PyDict V) (k0 k : String) (h : k ≠ k0) :
    PyDict.get? (PyDict.del d k0) k = PyDict.get? d k :=
  pyGet_filter_key (b := d) _ k (fun _ => by simp [h])

theorem pyGet_del_self {V : Type} (d : PyDict V) (k : String) :
    PyDict.get? (PyDict.del d k) k = none :=
  pyGet_filter_key_none (b := d) _ k (fun _ => by simp)

theorem splitOnce_single_not_mem (c : Char) :
    ∀ s : List Char, c ∉ s → splitOnceCh [c] s = none := by
  intro s
  induction s with
  | nil => intro _; rfl
  | cons d ds ih =>
      intro h
      have hcd : ¬(c = d) := fun hc => h (by simp [hc])
      simp [splitOnceCh, chIsPre, hcd, ih (fun hm => h (by simp [hm]))]

theorem splitOnce_single_append (c : Char) :
    ∀ x y : List Char, c ∉ x → splitOnceCh [c] (x ++ c :: y) = some (x, y) := by
  intro x
  induction x with
  | nil => intro y _; simp [splitOnceCh, chIsPre]
  | cons d x' ih =>
      intro y h
      have hcd : ¬(c = d) := fun hc => h (by simp [hc])
      simp [splitOnceCh, chIsPre, hcd, ih y (fun hm => h (by simp [hm]))]

/-- A string with no comma is not split: both halves get the whole value. -/
theorem split_attributes_single (v : String)
    (hv : v.data.all (fun c => ¬(c = ',')) = true) :
    split_attributes v = (v, v) := by
  have hnm : ',' ∉ v.data := by
    intro hm
    have := (List.all_eq_true.mp hv) ',' hm
    simp at this
  have hsp : splitOnceCh (",".data) v.data = none := splitOnce_single_not_mem ',' v.data hnm
  simp [split_attributes, pySplit, pySplitCh, hsp]

/-- A comma-separated pair is split at the comma. -/
theorem split_attributes_pair (x y : String)
    (hx : x.data.all (fun c => ¬(c = ',')) = true)
    (hy : y.data.all (fun c => ¬(c = ',')) = true) :
    split_attributes (x ++ "," ++ y) = (x, y) := by
  have hnx : ',' ∉ x.data := by
    intro hm
    have := (List.all_eq_true.mp hx) ',' hm
    simp at this
  have hny : ',' ∉ y.data := by
    intro hm
    have := (List.all_eq_true.mp hy) ',' hm
    simp at this
  have hsp1 : splitOnceCh [','] (x.data ++ ',' :: y.data) = some (x.data, y.data) :=
    splitOnce_single_append ',' x.data y.data hnx
  have hsp2 : splitOnceCh [','] y.data = none := splitOnce_single_not_mem ',' y.data hny
  simp [split_attributes, pySplit, pySplitCh, hsp1, hsp2]

/-- Attributes other than `align`/`width` reach both column Divs
unchanged. -/
theorem pa_other_key (attrs : PyDict String) (k : String)
    (hk1 : k ≠ "align") (hk2 : k ≠ "width") :
    PyDict.get? (dictMerge (process_attributes attrs).1
      (process_attributes attrs).2.1) k = PyDict.get? attrs k ∧
    PyDict.get? (dictMerge (process_attributes attrs).1
      (process_attributes attrs).2.2) k = PyDict.get? attrs k := by
  have h1 : ("align" = k) = False := by simp [Ne.symm hk1]
  have h2 : ("width" = k) = False := by simp [Ne.symm hk2]
  cases hga : PyDict.get? attrs "align" <;> cases hgw : PyDict.get? attrs "width" <;>
    simp [process_attributes, hga, hgw, dictMerge_get?, PyDict.get?, h1, h2,
      pyGet_del_ne _ _ _ hk1, pyGet_del_ne _ _ _ hk2,
      pyGet_del_ne attrs "align" "width" (by decide)]

/-- `align` / `width` values present on the original Div are split: the
left column receives the first part, the right column the second. -/
theorem pa_pair_key (attrs : PyDict String) (n v : String)
    (hn : n = "align" ∨ n = "width") (h : PyDict.get? attrs n = some v) :
    PyDict.get? (dictMerge (process_attributes attrs).1
      (process_attributes attrs).2.1) n = some (split_attributes v).1 ∧
    PyDict.get? (dictMerge (process_attributes attrs).1
      (process_attributes attrs).2.2) n = some (split_attributes v).2 := by
  rcases hn with rfl | rfl
  · cases hgw : PyDict.get? attrs "width" <;>
      simp [process_attributes, h, hgw, dictMerge_get?, PyDict.get?,
        pyGet_del_ne attrs "align" "width" (by decide)]
  · cases hga : PyDict.get? attrs "align" <;>
      simp [process_attributes, h, hga, dictMerge_get?, PyDict.get?,
        pyGet_del_ne attrs "align" "width" (by decide)]

/-- C7: in the Column-Split rule each of `align` and `width` is split into
at most two comma-separated parts: a single value is applied to both column
Divs, a pair `x,y` of comma-free values sends `x` to the left column and
`y` to the right; every other attribute of the original Div reaches both
column Divs unchanged.  (The column Divs carry exactly the merged
dictionaries shown in the rewritten output of the action.) -/
theorem C7_attribute_pair_splitting (format identifier : String)
    (cls : List String) (attrs : PyDict String) (n v x y k : String)
    (hn : n = "align" ∨ n = "width")
    (hv : v.data.all (fun c => ¬(c = ',')) = true)
    (hx : x.data.all (fun c => ¬(c = ',')) = true)
    (hy : y.data.all (fun c => ¬(c = ',')) = true)
    (hk1 : k ≠ "align") (hk2 : k ≠ "width") :
    (twocolAction format
        (Block.Div identifier ("twocol" :: cls) attrs [Block.HorizontalRule]) =
      Except.ok (some (Block.Div "" ["columns"] []
        [Block.Div "" ["column"]
           (dictMerge (process_attributes attrs).1 (process_attributes attrs).2.1)
           [],
         Block.Div "" ["column"]
           (dictMerge (process_attributes attrs).1 (process_attributes attrs).2.2)
           []]))) ∧
    (PyDict.get? attrs n = some v →
      PyDict.get? (dictMerge (process_attributes attrs).1
        (process_attributes attrs).2.1) n = some v ∧
      PyDict.get? (dictMerge (process_attributes attrs).1
        (process_attributes attrs).2.2) n = some v) ∧
    (PyDict.get? attrs n = some (x ++ "," ++ y) →
      PyDict.get? (dictMerge (process_attributes attrs).1
        (process_attributes attrs).2.1) n = some x ∧
      PyDict.get? (dictMerge (process_attributes attrs).1
        (process_attributes attrs).2.2) n = some y) ∧
    PyDict.get? (dictMerge (process_attributes attrs).1
      (process_attributes attrs).2.1) k = PyDict.get? attrs k ∧
    PyDict.get? (dictMerge (process_attributes attrs).1
      (process_attributes attrs).2.2) k = PyDict.get? attrs k := by
  refine ⟨?_, ?_, ?_, (pa_other_key attrs k hk1 hk2).1, (pa_other_key attrs k hk1 hk2).2⟩
  · simp [twocolAction, DIVNAME, findHRpos,
      show isHorizontalRule Block.HorizontalRule = true from rfl]
  · intro h
    have := pa_pair_key attrs n v hn h
    rwa [split_attributes_single v hv] at this
  · intro h
    have := pa_pair_key attrs n (x ++ "," ++ y) hn h
    rwa [split_attributes_pair x y hx hy] at this

/-- C7 witness: `align="top,bottom"` goes `top` left and `bottom` right,
`width="20%"` is applied to both columns, and the unrelated attribute
`role="x"` is copied to both columns. -/
theorem C7_attribute_pair_splitting_witness :
    PyDict.get?
      (dictMerge (process_attributes [("align", "top,bottom"), ("width", "20%"), ("role", "x")]).1
        (process_attributes [("align", "top,bottom"), ("width", "20%"), ("role", "x")]).2.1)
      "align" = some "top" ∧
    PyDict.get?
      (dictMerge (process_attributes [("align", "top,bottom"), ("width", "20%"), ("role", "x")]).1
        (process_attributes [("align", "top,bottom"), ("width", "20%"), ("role", "x")]).2.2)
      "align" = some "bottom" ∧
    PyDict.get?
      (dictMerge (process_attributes [("align", "top,bottom"), ("width", "20%"), ("role", "x")]).1
        (process_attributes [("align", "top,bottom"), ("width", "20%"), ("role", "x")]).2.2)
      "width" = some "20%" ∧
    PyDict.get?
      (dictMerge (process_attributes [("align", "top,bottom"), ("width", "20%"), ("role", "x")]).1
        (process_attributes [("align", "top,bottom"), ("width", "20%"), ("role", "x")]).2.1)
      "role" = some "x" := by
  have h := C7_attribute_pair_splitting "beamer" "" []
    [("align", "top,bottom"), ("width", "20%"), ("role", "x")]
    "align" "20%" "top" "bottom" "role" (Or.inl rfl)
    (by decide) (by decide) (by decide) (by decide) (by decide)
  have h2 := C7_attribute_pair_splitting "beamer" "" []
    [("align", "top,bottom"), ("width", "20%"), ("role", "x")]
    "width" "20%" "top" "bottom" "role" (Or.inr rfl)
    (by decide) (by decide) (by decide) (by decide) (by decide)
  exact ⟨(h.2.2.1 (by decide)).1, (h.2.2.1 (by decide)).2,
         (h2.2.1 (by decide)).2, h.2.2.2.1.trans (by decide)⟩

/- ## C10: environment wrapping -/

/-- `bs` contains a Paragraph-type descendant (in a depth-first sense). -/
def hasPara : List Block → Bool
  | [] => false
  | Block.Para _ :: _ => true
  | Block.Div _ _ _ content :: bs => hasPara content || hasPara bs
  | _ :: bs => hasPara bs

/-- With `doc.div` already consumed, the walk changes nothing. -/
theorem walkAddBefore_none : ∀ bs : List Block, walkAddBefore none bs = (none, bs)
  | [] => by simp [walkAddBefore]
  | Block.Para ils :: bs => by simp [walkAddBefore, walkAddBefore_none bs]
  | Block.Div i c a content :: bs => by
      simp [walkAddBefore, walkAddBefore_none content, walkAddBefore_none bs]
  | Block.Plain ils :: bs => by simp [walkAddBefore, walkAddBefore_none bs]
  | Block.HorizontalRule :: bs => by simp [walkAddBefore, walkAddBefore_none bs]
  | Block.RawBlock f t :: bs => by simp [walkAddBefore, walkAddBefore_none bs]

/-- A block list with no Paragraph descendant is traversed without effect:
the pending opening marker survives and nothing changes. -/
theorem walkAddBefore_noPara : ∀ (st : Option EnvData) (bs : List Block),
    hasPara bs = false → walkAddBefore st bs = (st, bs)
  | _, [], _ => by simp [walkAddBefore]
  | st, Block.Para ils :: bs, h => by simp [hasPara] at h
  | st, Block.Div i c a content :: bs, h => by
      have h' : hasPara content = false ∧ hasPara bs = false := by
        simpa [hasPara] using h
      simp [walkAddBefore, walkAddBefore_noPara st content h'.1,
        walkAddBefore_noPara st bs h'.2]
  | st, Block.Plain ils :: bs, h => by
      simp [walkAddBefore, walkAddBefore_noPara st bs (by simpa [hasPara] using h)]
  | st, Block.HorizontalRule :: bs, h => by
      simp [walkAddBefore, walkAddBefore_noPara st bs (by simpa [hasPara] using h)]
  | st, Block.RawBlock f t :: bs, h => by
      simp [walkAddBefore, walkAddBefore_noPara st bs (by simpa [hasPara] using h)]

/-- The pending opening marker is inserted into the first Paragraph of the
list (in depth-first order): everything before it is unchanged, the marker
is consumed there, and the rest of the list is unchanged. -/
theorem walkAddBefore_insert (d : EnvData) (pre : List Block)
    (ils : List Inline) (post : List Block) (h : hasPara pre = false) :
    walkAddBefore (some d) (pre ++ Block.Para ils :: post) =
      (none, pre ++ Block.Para (Inline.RawInline "tex"
        ("\\begin\x7b" ++ d.1 ++ "\x7d" ++ d.2.1 ++ d.2.2) :: ils) :: post) := by
  induction pre with
  | nil => simp [walkAddBefore, walkAddBefore_none]
  | cons b pre ih =>
      cases b with
      | Para ils0 => simp [hasPara] at h
      | Div i c a content =>
          have hc : hasPara content = false := by
            simp [hasPara] at h
            exact h.1
          have hp : hasPara pre = false := by
            simp [hasPara] at h
            exact h.2
          simp [walkAddBefore, walkAddBefore_noPara _ _ hc, ih hp]
      | Plain ils0 => simp [walkAddBefore, ih (by simpa [hasPara] using h)]
      | HorizontalRule => simp [walkAddBefore, ih (by simpa [hasPara] using h)]
      | RawBlock f t => simp [walkAddBefore, ih (by simpa [hasPara] using h)]

/-- C10: for a Div matched by the Environment-Wrap rule (the `div-env`
metadata table maps its first class to `env`), the opening marker
`\begin{env}` — followed by the bracketed `title` qualifier when the
`title` attribute is present, then `\label{id}` when the identifier is
non-empty — is injected as a raw-inline prefix into the first Paragraph
descendant found in a single depth-first walk (not as a new sibling
block); the closing marker `\end{env}` is appended as a new trailing block
holding only that raw text; and when the Div has no Paragraph descendant
the opening marker is never emitted while the closing is still appended. -/
theorem C10_environment_wrap (meta : PyDict String) (format : String)
    (identifier c0 : String) (cls : List String) (attrs : PyDict String)
    (env title label : String) (pre : List Block) (ils : List Inline)
    (post : List Block)
    (hc : PyDict.get? meta c0 = some env)
    (htitle : title = (match PyDict.get? attrs "title" with
                       | some t => "[" ++ t ++ "]"
                       | none => ""))
    (hlabel : label = (if identifier ≠ ""
                       then "\\label\x7b" ++ identifier ++ "\x7d" else ""))
    (hpre : hasPara pre = false) :
    divEnvAction meta format
        (Block.Div identifier (c0 :: cls) attrs (pre ++ Block.Para ils :: post)) =
      some (Block.Div identifier (c0 :: cls) attrs
        ((pre ++ Block.Para (Inline.RawInline "tex"
            ("\\begin\x7b" ++ env ++ "\x7d" ++ title ++ label) :: ils) :: post) ++
         [Block.Plain [Inline.RawInline "tex" ("\\end\x7b" ++ env ++ "\x7d")]])) ∧
    (∀ content : List Block, hasPara content = false →
      divEnvAction meta format (Block.Div identifier (c0 :: cls) attrs content) =
        some (Block.Div identifier (c0 :: cls) attrs
          (content ++
           [Block.Plain [Inline.RawInline "tex" ("\\end\x7b" ++ env ++ "\x7d")]]))) := by
  have hne : meta.isEmpty = false := by
    cases meta with
    | nil => simp [PyDict.get?] at hc
    | cons p m => rfl
  constructor
  · simp [divEnvAction, hne, hc, htitle, hlabel, walkAddBefore_insert, hpre]
  · intro content hcontent
    simp [divEnvAction, hne, hc, htitle, hlabel, walkAddBefore_noPara, hcontent]

/-- C10 witness: with table `{"c": "e"}`, a `c`-classed Div with identifier
`i`, title `T`, and content `[Plain "a", Para "b", Para "z"]` gets
`\begin{e}[T]\label{i}` merged into the first Paragraph only, plus a
trailing `\end{e}` block; a Div with no Paragraph gets only the trailing
block. -/
theorem C10_environment_wrap_witness :
    divEnvAction [("c", "e")] "latex"
        (Block.Div "i" ["c"] [("title", "T")]
          [Block.Plain [Inline.Str "a"], Block.Para [Inline.Str "b"],
           Block.Para [Inline.Str "z"]]) =
      some (Block.Div "i" ["c"] [("title", "T")]
        [Block.Plain [Inline.Str "a"],
         Block.Para [Inline.RawInline "tex" "\\begin\x7be\x7d[T]\\label\x7bi\x7d",
                     Inline.Str "b"],
         Block.Para [Inline.Str "z"],
         Block.Plain [Inline.RawInline "tex" "\\end\x7be\x7d"]]) ∧
    divEnvAction [("c", "e")] "latex"
        (Block.Div "" ["c"] [] [Block.RawBlock "tex" "q"]) =
      some (Block.Div "" ["c"] []
        [Block.RawBlock "tex" "q",
         Block.Plain [Inline.RawInline "tex" "\\end\x7be\x7d"]]) := by
  constructor
  · have h := (C10_environment_wrap [("c", "e")] "latex" "i" "c" []
      [("title", "T")] "e" "[T]" "\\label\x7bi\x7d"
      [Block.Plain [Inline.Str "a"]] [Inline.Str "b"] [Block.Para [Inline.Str "z"]]
      (by decide) (by decide) (by decide) (by simp [hasPara])).1
    exact h.trans (by simp)
  · have h := (C10_environment_wrap [("c", "e")] "latex" "" "c" []
      [] "e" "" "" [] [] [] (by decide) (by decide) (by decide) (by simp [hasPara])).2
      [Block.RawBlock "tex" "q"] (by simp [hasPara])
    exact h.trans (by simp)

end PandocFilters
